import Mathlib

/-!
Verification of the pynxtools data-converter core against its specification.

The development shallowly embeds the two source files
`nexusparser/tools/dataconverter/convert.py` and
`nexusparser/tools/dataconverter/readers/transmission/reader.py`:

* Python dictionaries (the "template") become functions `String → Option TValue`
  where `none` means "key absent" and `some .pynone` means "key present with
  value None"; `dict.__setitem__` is `tset` and `dict.update` is `tupdate`.
  This matches Python dict equality, which is insertion-order independent.
* Python floats are represented as validated decimal literals
  (`PyFloat`, mantissa times a power of ten); the embedded code never performs
  arithmetic on them, it only stores, lists and reverses them, so this
  representation is exact for every operation that actually occurs.
* String operations (`str.strip`, `str.split`, `os.path.splitext`, ...) are
  re-implemented over `List Char` so that every definition evaluates inside
  the kernel.
* Fallible operations (list indexing, `float(...)`, `pandas.read_csv`)
  return `Option`; `none` models a raised exception.
-/

/-- A value stored in a template dictionary.  `pynone` is Python's `None`
("required but unfilled"); the other constructors cover the value shapes the
embedded code actually stores: strings, numbers, numeric lists and the 2D
measured-data array. -/
inductive TValue where
  | pynone
  | vstr (s : String)
  | vnum (x : Int × Nat)
  | vnumlist (xs : List (Int × Nat))
  | vmat (m : List (List (Int × Nat)))
deriving DecidableEq

/-- A Python float parsed from a decimal token: `(m, e)` denotes `m / 10^e`.
The embedded code stores and rearranges these values but never computes with
them, so the unevaluated decimal form is a faithful representation. -/
def PyFloat : Type := Int × Nat

instance : DecidableEq PyFloat := inferInstanceAs (DecidableEq (Int × Nat))

/-- A Python dictionary from template paths to values; `none` = key absent. -/
def Dict : Type := String → Option TValue

/-- The empty dictionary `{}`. -/
def emptyDict : Dict := fun _ => none

/-- Python `d[k] = v`. -/
def tset (t : Dict) (k : String) (v : TValue) : Dict :=
  fun q => if q = k then some v else t q

/-- Python `t.update(d)`: keys of `d` win, other keys keep their `t` value. -/
def tupdate (t d : Dict) : Dict :=
  fun q => match d q with
    | some v => some v
    | none => t q

theorem tset_self (t : Dict) (k : String) (v : TValue) : tset t k v k = some v := by
  simp [tset]

theorem tset_ne (t : Dict) (k : String) (v : TValue) {q : String} (h : q ≠ k) :
    tset t k v q = t q := by
  simp [tset, h]

theorem tset_cases (t : Dict) (k : String) (v : TValue) {q : String}
    (h : tset t k v q ≠ none) : q = k ∨ t q ≠ none := by
  by_cases hq : q = k
  · exact Or.inl hq
  · rw [tset_ne t k v hq] at h
    exact Or.inr h

theorem tupdate_of_some (t d : Dict) {k : String} {v : TValue} (h : d k = some v) :
    tupdate t d k = some v := by
  simp [tupdate, h]

theorem tupdate_of_none (t d : Dict) {k : String} (h : d k = none) :
    tupdate t d k = t k := by
  simp [tupdate, h]

theorem tupdate_preserves (t d : Dict) {k : String} (h : t k ≠ none) :
    tupdate t d k ≠ none := by
  unfold tupdate
  cases hd : d k with
  | none => simpa using h
  | some v => simp

/-! ### Character-list string utilities

Re-implementations of the Python string primitives used by the sources,
written over `List Char` so that they reduce in the kernel. -/

/-- Remove leading and trailing whitespace characters (Python `str.strip`). -/
def trimChars (cs : List Char) : List Char :=
  ((cs.dropWhile (fun c => c.isWhitespace)).reverse.dropWhile
    (fun c => c.isWhitespace)).reverse

/-- Python `str.strip()`. -/
def sstrip (s : String) : String := String.mk (trimChars s.data)

/-- Worker for `splitWs`: split on runs of whitespace, dropping empty pieces. -/
def wsplitGo : List Char → List Char → List (List Char)
  | [], acc => if acc = [] then [] else [acc.reverse]
  | c :: cs, acc =>
    if c.isWhitespace then
      if acc = [] then wsplitGo cs [] else acc.reverse :: wsplitGo cs []
    else wsplitGo cs (c :: acc)

/-- Python `str.split()` with no argument: split on whitespace runs. -/
def splitWs (s : String) : List String := (wsplitGo s.data []).map String.mk

/-- Worker for `splitOnChar`: split at every occurrence of `sep`,
keeping empty pieces (Python `str.split(sep)`). -/
def splitOnCharGo (sep : Char) : List Char → List Char → List (List Char)
  | [], acc => [acc.reverse]
  | c :: cs, acc =>
    if c = sep then acc.reverse :: splitOnCharGo sep cs []
    else splitOnCharGo sep cs (c :: acc)

/-- Python `str.split(sep)` for a one-character separator. -/
def splitOnChar (sep : Char) (s : String) : List String :=
  (splitOnCharGo sep s.data []).map String.mk

/-- Python `s.split(sep)[-1]` (the list is never empty). -/
def lastPiece (sep : Char) (s : String) : String :=
  (splitOnChar sep s).getLastD ""

/-- Python list indexing `l[i]` with negative-index wraparound; `none` models
a raised `IndexError`. -/
def pyGet {α : Type} (l : List α) (i : Int) : Option α :=
  if 0 ≤ i then l.get? i.toNat
  else if i.natAbs ≤ l.length then l.get? (l.length - i.natAbs) else none

/-- The extension part of `os.path.splitext`: the suffix of the basename from
its last dot, provided some non-dot character precedes that dot (leading dots
of a basename never start an extension). -/
def extOf (f : String) : String :=
  let base := ((splitOnChar '/' f).getLastD "").data
  let dots := (List.range base.length).filter (fun i => base.getD i ' ' == '.')
  match dots.getLast? with
  | none => ""
  | some i =>
    if (List.range i).any (fun j => base.getD j ' ' != '.') then
      String.mk (base.drop i)
    else ""

/-- Decimal digits to a natural number. -/
def digitsToNat (cs : List Char) : Nat :=
  cs.foldl (fun n c => 10 * n + (c.toNat - 48)) 0

/-- Python `float(s)`, restricted to the decimal literals that occur in the
instrument files: optional sign, digits, at most one decimal point, at least
one digit.  `none` models a raised `ValueError`. -/
def parseFloat (s : String) : Option PyFloat :=
  let cs := trimChars s.data
  let sgn : Int := match cs with
    | '-' :: _ => -1
    | _ => 1
  let cs := match cs with
    | '-' :: r => r
    | '+' :: r => r
    | r => r
  match splitOnCharGo '.' cs [] with
  | [ip] =>
    if ip ≠ [] ∧ ip.all (fun c => c.isDigit) then
      some (sgn * (digitsToNat ip : Int), 0)
    else none
  | [ip, fp] =>
    if (ip ≠ [] ∨ fp ≠ []) ∧ ip.all (fun c => c.isDigit) ∧ fp.all (fun c => c.isDigit) then
      some (sgn * ((digitsToNat ip * 10 ^ fp.length + digitsToNat fp : Nat) : Int), fp.length)
    else none
  | _ => none

/-! ### Python's stable sort

`sorted(xs, key=...)` is modelled by a stable insertion sort: each element is
inserted before the first already-placed element that is not strictly below
it, so elements with equal keys keep their argument order, exactly like
Python's sort. -/

/-- Insert `x` before the first element `y` with `le x y` (stable). -/
def pyInsert {α : Type} (le : α → α → Bool) (x : α) : List α → List α
  | [] => [x]
  | y :: ys => if le x y then x :: y :: ys else y :: pyInsert le x ys

/-- Stable insertion sort modelling Python's builtin `sorted`. -/
def pySort {α : Type} (le : α → α → Bool) : List α → List α
  | [] => []
  | x :: xs => pyInsert le x (pySort le xs)

theorem pyInsert_perm {α : Type} (le : α → α → Bool) (x : α) (l : List α) :
    (pyInsert le x l).Perm (x :: l) := by
  induction l with
  | nil => simp [pyInsert]
  | cons y ys ih =>
    unfold pyInsert
    by_cases h : le x y = true
    · simp [h]
    · simp only [h, if_false]
      exact (List.Perm.cons y ih).trans (List.Perm.swap x y ys)

theorem pySort_perm {α : Type} (le : α → α → Bool) (l : List α) :
    (pySort le l).Perm l := by
  induction l with
  | nil => simp [pySort]
  | cons x xs ih =>
    unfold pySort
    exact (pyInsert_perm le x (pySort le xs)).trans (List.Perm.cons x ih)

theorem mem_pyInsert {α : Type} (le : α → α → Bool) (x : α) (l : List α) {a : α}
    (h : a ∈ pyInsert le x l) : a = x ∨ a ∈ l := by
  have := (pyInsert_perm le x l).mem_iff.mp h
  simpa using this

theorem pyInsert_pairwise {α : Type} (le : α → α → Bool)
    (hto : ∀ a b, le a b = true ∨ le b a = true)
    (htr : ∀ a b c, le a b = true → le b c = true → le a c = true)
    (x : α) (l : List α)
    (hl : l.Pairwise (fun a b => le a b = true)) :
    (pyInsert le x l).Pairwise (fun a b => le a b = true) := by
  induction l with
  | nil => simp [pyInsert]
  | cons y ys ih =>
    rcases List.pairwise_cons.mp hl with ⟨hy, hys⟩
    unfold pyInsert
    by_cases h : le x y = true
    · simp only [h, if_true]
      refine List.pairwise_cons.mpr ⟨?_, hl⟩
      intro b hb
      rcases List.mem_cons.mp hb with hb | hb
      · exact hb ▸ h
      · exact htr x y b h (hy b hb)
    · simp only [h, if_false]
      refine List.pairwise_cons.mpr ⟨?_, ih hys⟩
      intro b hb
      rcases mem_pyInsert le x ys hb with hb | hb
      · rcases hto x y with hxy | hyx
        · exact absurd hxy h
        · exact hb ▸ hyx
      · exact hy b hb

theorem pySort_pairwise {α : Type} (le : α → α → Bool)
    (hto : ∀ a b, le a b = true ∨ le b a = true)
    (htr : ∀ a b c, le a b = true → le b c = true → le a c = true)
    (l : List α) : (pySort le l).Pairwise (fun a b => le a b = true) := by
  induction l with
  | nil => simp [pySort]
  | cons x xs ih =>
    unfold pySort
    exact pyInsert_pairwise le hto htr x (pySort le xs) ih

/-- Two sorted permutations whose key images are duplicate-free are equal:
the heart of the amended order-independence claim C3. -/
theorem sorted_perm_nodupkeys_eq {α β : Type} (le : α → α → Bool) (key : α → β)
    (hanti : ∀ a b, le a b = true → le b a = true → key a = key b) :
    ∀ l₁ l₂ : List α, l₁.Perm l₂ →
      l₁.Pairwise (fun a b => le a b = true) →
      l₂.Pairwise (fun a b => le a b = true) →
      (l₁.map key).Nodup → l₁ = l₂ := by
  intro l₁
  induction l₁ with
  | nil =>
    intro l₂ hp _ _ _
    exact (hp.nil_eq).symm ▸ rfl
  | cons a t₁ ih =>
    intro l₂ hp hs₁ hs₂ hnd
    cases l₂ with
    | nil => exact absurd hp.symm.nil_eq (by simp)
    | cons b t₂ =>
      rcases List.pairwise_cons.mp hs₁ with ⟨ha, hts₁⟩
      rcases List.pairwise_cons.mp hs₂ with ⟨hb, hts₂⟩
      rw [List.map_cons] at hnd
      rcases List.nodup_cons.mp hnd with ⟨hka, hndt⟩
      by_cases hab : a = b
      · subst hab
        have hp' := hp.cons_inv
        rw [ih t₂ hp' hts₁ hts₂ hndt]
      · exfalso
        have hbmem : b ∈ a :: t₁ := hp.symm.subset (List.mem_cons_self b t₂)
        have hamem : a ∈ b :: t₂ := hp.subset (List.mem_cons_self a t₁)
        have hbt₁ : b ∈ t₁ := by
          rcases List.mem_cons.mp hbmem with h | h
          · exact absurd h.symm hab
          · exact h
        have hat₂ : a ∈ t₂ := by
          rcases List.mem_cons.mp hamem with h | h
          · exact absurd h hab
          · exact h
        have hk : key a = key b := hanti a b (ha b hbt₁) (hb a hat₂)
        have : key b ∈ t₁.map key := List.mem_map_of_mem key hbt₁
        exact hka (hk ▸ this)

/-! ### Schema definition trees and `generate_template_from_nxdl`
(from `nexusparser/tools/dataconverter/convert.py`) -/

mutual

/-- A parsed XML schema-definition node: a tag (possibly namespace-qualified),
an attribute list and an ordered forest of children. -/
inductive XNode : Type where
  | mk (tag : String) (attrib : List (String × String)) (children : XForest)

/-- An ordered forest of schema nodes. -/
inductive XForest : Type where
  | nil
  | cons (n : XNode) (f : XForest)

end

def XNode.tag : XNode → String
  | .mk t _ _ => t

def XNode.attrib : XNode → List (String × String)
  | .mk _ a _ => a

def XNode.children : XNode → XForest
  | .mk _ _ c => c

/-- First-match lookup in an attribute list (Python `node.attrib[key]` /
`key in node.attrib`). -/
def alookup : List (String × String) → String → Option String
  | [], _ => none
  | (k, v) :: r, q => if q = k then some v else alookup r q

/-- Modelled from the spec: `helpers.remove_namespace_from_tag` (the module
`nexusparser/tools/dataconverter/helpers.py` is not in the sources).  Standard
XML namespace stripping: the part of the tag after the last closing brace. -/
def remove_namespace_from_tag (tag : String) : String :=
  (splitOnChar '\x7d' tag).getLastD tag

/-- Modelled from the spec: `helpers.convert_nexus_to_caps` (helpers module
missing from the sources).  The "caps form" of a NeXus class name: the class
suffix after the `NX` prefix, uppercased. -/
def convert_nexus_to_caps (ty : String) : String :=
  String.mk ((ty.data.drop 2).map Char.toUpper)

/-- Modelled from the spec: `helpers.convert_nexus_to_suggested_name`
(helpers module missing from the sources).  The "suggested name form" of a
NeXus class name: the lowercase suffix after the `NX` prefix. -/
def convert_nexus_to_suggested_name (ty : String) : String :=
  String.mk (ty.data.drop 2)

/-- First child tagged `group`, if any. -/
def firstGroup : XForest → Option XNode
  | .nil => none
  | .cons n f =>
    if remove_namespace_from_tag n.tag = "group" then some n else firstGroup f

/-- Modelled from the spec: `helpers.get_first_group` (helpers module missing
from the sources).  "On first call, descends into the tree's first child
group (skipping a root wrapper)"; totalized to return the root itself when no
child group exists. -/
def get_first_group (root : XNode) : XNode :=
  match firstGroup root.children with
  | some g => g
  | none => root

/-- The path segment contributed by a node, per
`generate_template_from_nxdl` lines 54-63: the `name` attribute if present,
otherwise `CAPS[suggested]` derived from the `type` attribute, otherwise
empty; `attribute` nodes get an `@` prefix. -/
def nodeSuffix (tag : String) (attrib : List (String × String)) : String :=
  let base :=
    match alookup attrib "name" with
    | some n => n
    | none =>
      match alookup attrib "type" with
      | some ty =>
        convert_nexus_to_caps ty ++ "[" ++ convert_nexus_to_suggested_name ty ++ "]"
      | none => ""
  if tag = "attribute" then "@" ++ base else base

/-- The `units`-attribute condition of `generate_template_from_nxdl` line 72:
`units` is present and differs from `"NX_UNITLESS"`. -/
def unitsQualified (attrib : List (String × String)) : Bool :=
  match alookup attrib "units" with
  | some u => u != "NX_UNITLESS"
  | none => false

mutual

/-- The recursive body of `generate_template_from_nxdl`
(`convert.py` lines 43-76) for a non-`None` path: prune `doc` subtrees,
extend the path by the node's segment, record `field`/`attribute` nodes as
unfilled template keys, add a `/@units` sibling for a qualifying `field`, and
recurse into all children with the extended path. -/
def genFromNxdl : XNode → Dict → String → Dict
  | .mk rawTag attrib ch, template, path =>
    let tag := remove_namespace_from_tag rawTag
    if tag = "doc" then template
    else
      let path := path ++ "/" ++ nodeSuffix tag attrib
      let template :=
        if tag = "field" ∨ tag = "attribute" then tset template path .pynone
        else template
      let template :=
        if tag = "field" ∧ unitsQualified attrib = true then
          tset template (path ++ "/@units") .pynone
        else template
      genFromNxdlChildren ch template path

/-- The `for child in root` loop of `generate_template_from_nxdl`. -/
def genFromNxdlChildren : XForest → Dict → String → Dict
  | .nil, t, _ => t
  | .cons n f, t, p => genFromNxdlChildren f (genFromNxdl n t p) p

end

/-- `generate_template_from_nxdl(root, template)` with the default
`path=None`: descend to the first group and start with the empty path. -/
def generate_template_from_nxdl (root : XNode) (template : Dict) : Dict :=
  genFromNxdl (get_first_group root) template ""

mutual

/-- The claim-side path enumeration for one node: the slash-delimited
concatenation of ancestor segments for every `field`/`attribute` node not
under a `doc` ancestor (plus the `/@units` sibling of a qualifying `field`);
`doc` subtrees and all other nodes contribute nothing. -/
def nodeKeys : XNode → String → List String
  | .mk rawTag attrib ch, path =>
    let tag := remove_namespace_from_tag rawTag
    if tag = "doc" then []
    else
      let path := path ++ "/" ++ nodeSuffix tag attrib
      (if tag = "field" ∨ tag = "attribute" then [path] else [])
        ++ (if tag = "field" ∧ unitsQualified attrib = true then
              [path ++ "/@units"] else [])
        ++ forestKeys ch path

/-- Claim-side path enumeration for a forest of siblings. -/
def forestKeys : XForest → String → List String
  | .nil, _ => []
  | .cons n f, p => nodeKeys n p ++ forestKeys f p

end

mutual

/-- The walker writes exactly the enumerated paths: after running it, a key
reads as Python `None` iff it is one of `nodeKeys`, and every other key keeps
its previous binding. -/
theorem genFromNxdl_lookup (n : XNode) (t : Dict) (p : String) (k : String) :
    genFromNxdl n t p k =
      if k ∈ nodeKeys n p then some TValue.pynone else t k := by
  match n with
  | .mk rawTag attrib ch =>
    by_cases hdoc : remove_namespace_from_tag rawTag = "doc"
    · simp [genFromNxdl, nodeKeys, hdoc]
    · simp only [genFromNxdl, nodeKeys, hdoc, if_false]
      rw [genFromNxdlChildren_lookup]
      generalize remove_namespace_from_tag rawTag = tg at *
      generalize p ++ "/" ++ nodeSuffix tg attrib = pa
      by_cases hch : k ∈ forestKeys ch pa
      · simp [hch]
      · simp only [hch, if_false, List.mem_append, or_false]
        by_cases hu : tg = "field" ∧ unitsQualified attrib = true
        · have hfa : tg = "field" ∨ tg = "attribute" := Or.inl hu.1
          simp only [if_pos hu, if_pos hfa, List.mem_singleton]
          by_cases hk₂ : k = pa ++ "/@units"
          · rw [hk₂, tset_self]
            simp
          · rw [tset_ne _ _ _ hk₂]
            by_cases hk₁ : k = pa
            · rw [hk₁, tset_self]
              simp
            · rw [tset_ne _ _ _ hk₁]
              simp [hk₁, hk₂]
        · simp only [if_neg hu]
          by_cases hfa : tg = "field" ∨ tg = "attribute"
          · simp only [if_pos hfa, List.mem_singleton]
            by_cases hk₁ : k = pa
            · rw [hk₁, tset_self]
              simp
            · rw [tset_ne _ _ _ hk₁]
              simp [hk₁]
          · simp [if_neg hfa]

/-- Forest version of `genFromNxdl_lookup`. -/
theorem genFromNxdlChildren_lookup (f : XForest) (t : Dict) (p : String) (k : String) :
    genFromNxdlChildren f t p k =
      if k ∈ forestKeys f p then some TValue.pynone else t k := by
  match f with
  | .nil => simp [genFromNxdlChildren, forestKeys]
  | .cons n f' =>
    rw [genFromNxdlChildren, forestKeys]
    rw [genFromNxdlChildren_lookup, genFromNxdl_lookup]
    by_cases h₂ : k ∈ forestKeys f' p
    · simp [h₂]
    · by_cases h₁ : k ∈ nodeKeys n p <;> simp [h₁, h₂]

end

/-- Claim C1: for every schema definition tree, `generate_template_from_nxdl`
run on an empty template produces exactly the keys enumerated by `nodeKeys`
over the first group of the root: one required key, initialized to Python
`None`, at the slash-delimited concatenation of ancestor segments for every
`field`/`attribute` node not under a `doc` ancestor, where a segment is the
node's `name` attribute if present and otherwise `CAPS[suggested]` derived
from its `type` attribute, `@`-prefixed for `attribute` nodes; `doc` nodes
and their descendants contribute no keys, and no other node contributes a key
(a qualifying `field` additionally owns its `/@units` sibling, cf. C7). -/
theorem C1_generate_template_keys (root : XNode) (k : String) :
    generate_template_from_nxdl root emptyDict k =
      if k ∈ nodeKeys (get_first_group root) "" then some TValue.pynone
      else none := by
  rw [generate_template_from_nxdl, genFromNxdl_lookup]
  rfl

/-- Claim C7: a `field` node (with no children, isolating the node's own
production) always produces its value key, and produces the sibling
`<path>/@units` key exactly when its `units` attribute is present and not
equal to `"NX_UNITLESS"`; both keys are unfilled, every other key is left
untouched. -/
theorem C7_field_units_production (attrib : List (String × String)) (t : Dict)
    (p k : String) :
    genFromNxdl (XNode.mk "field" attrib XForest.nil) t p k =
      (if k = p ++ "/" ++ nodeSuffix "field" attrib ∨
          (unitsQualified attrib = true ∧
            k = p ++ "/" ++ nodeSuffix "field" attrib ++ "/@units") then
        some TValue.pynone
      else t k) := by
  rw [genFromNxdl_lookup]
  have hstrip : remove_namespace_from_tag "field" = "field" := rfl
  by_cases hu : unitsQualified attrib = true <;>
    simp [nodeKeys, forestKeys, hstrip, hu, or_comm]

/-- Code-point comparison of characters (how Python compares the characters
of two strings). -/
def charLe (a b : Char) : Bool := decide (a.toNat ≤ b.toNat)

/-- Lexicographic code-point comparison of character lists: Python string
`<=`, used on the extension strings that act as sort keys. -/
def cllLe : List Char → List Char → Bool
  | [], _ => true
  | _ :: _, [] => false
  | a :: as, b :: bs => if a = b then cllLe as bs else charLe a b

theorem charLe_of_ne_of_not (a b : Char) (_hne : a ≠ b) (h : charLe a b = false) :
    charLe b a = true := by
  unfold charLe at *
  simp only [decide_eq_false_iff_not, decide_eq_true_eq] at *
  omega

theorem char_toNat_lt_of_le_of_ne (a b : Char) (hne : a ≠ b)
    (h : charLe a b = true) : a.toNat < b.toNat := by
  unfold charLe at h
  simp only [decide_eq_true_eq] at h
  rcases Nat.lt_or_ge a.toNat b.toNat with hlt | hge
  · exact hlt
  · exact absurd (Char.ext (UInt32.ext (Nat.le_antisymm h hge))) hne

theorem cllLe_total (a b : List Char) : cllLe a b = true ∨ cllLe b a = true := by
  induction a generalizing b with
  | nil => exact Or.inl rfl
  | cons x as ih =>
    cases b with
    | nil => exact Or.inr rfl
    | cons y bs =>
      by_cases hxy : x = y
      · subst hxy
        simp only [cllLe, if_pos rfl]
        exact ih bs
      · have hyx : y ≠ x := fun h => hxy h.symm
        simp only [cllLe, if_neg hxy, if_neg hyx]
        cases hc : charLe x y with
        | true => exact Or.inl rfl
        | false => exact Or.inr (charLe_of_ne_of_not x y hxy hc)

theorem cllLe_trans (a b c : List Char) (hab : cllLe a b = true)
    (hbc : cllLe b c = true) : cllLe a c = true := by
  induction a generalizing b c with
  | nil => rfl
  | cons x as ih =>
    cases b with
    | nil => exact absurd hab (by simp [cllLe])
    | cons y bs =>
      cases c with
      | nil => exact absurd hbc (by simp [cllLe])
      | cons z cs =>
        by_cases hxy : x = y
        · subst hxy
          rw [cllLe, if_pos rfl] at hab
          by_cases hyz : x = z
          · subst hyz
            rw [cllLe, if_pos rfl] at hbc ⊢
            exact ih bs cs hab hbc
          · rw [cllLe, if_neg hyz] at hbc ⊢
            exact hbc
        · rw [cllLe, if_neg hxy] at hab
          have hxylt := char_toNat_lt_of_le_of_ne x y hxy hab
          by_cases hyz : y = z
          · subst hyz
            rw [cllLe, if_neg hxy]
            exact hab
          · rw [cllLe, if_neg hyz] at hbc
            have hyzlt := char_toNat_lt_of_le_of_ne y z hyz hbc
            have hxzlt : x.toNat < z.toNat := Nat.lt_trans hxylt hyzlt
            have hxz : x ≠ z := by
              intro h
              subst h
              exact Nat.lt_irrefl _ hxzlt
            rw [cllLe, if_neg hxz]
            unfold charLe
            simp only [decide_eq_true_eq]
            exact Nat.le_of_lt hxzlt

theorem cllLe_antisymm (a b : List Char) (hab : cllLe a b = true)
    (hba : cllLe b a = true) : a = b := by
  induction a generalizing b with
  | nil =>
    cases b with
    | nil => rfl
    | cons y bs => exact absurd hba (by simp [cllLe])
  | cons x as ih =>
    cases b with
    | nil => exact absurd hab (by simp [cllLe])
    | cons y bs =>
      by_cases hxy : x = y
      · subst hxy
        rw [cllLe, if_pos rfl] at hab hba
        rw [ih bs hab hba]
      · have hyx : y ≠ x := fun h => hxy h.symm
        rw [cllLe, if_neg hxy] at hab
        rw [cllLe, if_neg hyx] at hba
        have h1 := char_toNat_lt_of_le_of_ne x y hxy hab
        have h2 := char_toNat_lt_of_le_of_ne y x hyx hba
        omega

/-! ### The conversion orchestration (`convert.py` lines 132-159) -/

/-- Is the character one of `[a-z_]` (the regex character class in
`convert.py` line 150)? -/
def lowerUnd (c : Char) : Bool :=
  (decide ('a' ≤ c) && decide (c ≤ 'z')) || c = '_'

/-- Does the input start with a match of the regex lookahead `.nxdl.xml`,
where the two dots are regex wildcards matching any character? -/
def dotPat : List Char → Bool
  | _ :: 'n' :: 'x' :: 'd' :: 'l' :: _ :: 'x' :: 'm' :: 'l' :: _ => true
  | _ => false

/-- Greedy matching of `[a-z_]*(?=.nxdl.xml)` with backtracking: consume the
longest `[a-z_]` run after which the lookahead succeeds, returning the
consumed run. -/
def nxdlGreedy (acc : List Char) : List Char → Option (List Char)
  | [] => none
  | c :: cs =>
    if lowerUnd c then
      match nxdlGreedy (c :: acc) cs with
      | some r => some r
      | none => if dotPat (c :: cs) then some acc.reverse else none
    else if dotPat (c :: cs) then some acc.reverse else none

/-- Try the regex `NX[a-z_]*(?=.nxdl.xml)` anchored at the current position;
`group(0)` is `NX` plus the run. -/
def nxdlMatchAt : List Char → Option String
  | 'N' :: 'X' :: rest =>
    (nxdlGreedy [] rest).map (fun run => String.mk ('N' :: 'X' :: run))
  | _ => none

/-- `re.search`: leftmost match position wins. -/
def nxdlSearch : List Char → Option String
  | [] => none
  | c :: cs =>
    match nxdlMatchAt (c :: cs) with
    | some r => some r
    | none => nxdlSearch cs

/-- `re.search("NX[a-z_]*(?=.nxdl.xml)", nxdl)` from `convert.py` line 150:
the schema root name derived from the NXDL file name, `none` when the regex
does not match (in which case `.group(0)` raises). -/
def nxdlNameOf (nxdl : String) : Option String := nxdlSearch nxdl.data

/-- The reader object selected by `get_reader`: its declared
`supported_nxdls` and its `read` entry point (`none` models a raised
exception). -/
structure ReaderSpec where
  supported_nxdls : List String
  readFn : Dict → List String → Option Dict

/-- Outcome of a conversion run: a fatal abort with a message, or the data
dictionary returned by the reader (validation and writing happen after and
are outside the modelled core). -/
inductive ConvertResult where
  | fatal (msg : String)
  | done (data : Dict)

/-- The core of `convert` (`convert.py` lines 132-156, with
`generate_template=False`): parse the NXDL tree into a template, derive the
schema root name from the NXDL path, abort if the selected reader does not
support it, otherwise invoke the reader on the template and input files. -/
def convertModel (nxdlPath : String) (nxdlRoot : XNode) (reader : ReaderSpec)
    (inputFiles : List String) : ConvertResult :=
  let template := generate_template_from_nxdl nxdlRoot emptyDict
  match nxdlNameOf nxdlPath with
  | none => ConvertResult.fatal "AttributeError"
  | some nxdlName =>
    if nxdlName ∈ reader.supported_nxdls then
      match reader.readFn template inputFiles with
      | some d => ConvertResult.done d
      | none => ConvertResult.fatal "reader exception"
    else ConvertResult.fatal "The chosen NXDL isn't supported by the selected reader."

/-- Claim C6: when the schema root name derived from the NXDL filename is not
in the selected reader's `supported_nxdls`, the conversion aborts with the
descriptive fatal error — for every reader `read` implementation and every
input-file list, so the reader is never invoked and no input file is opened. -/
theorem C6_unsupported_nxdl_fatal (nxdlPath : String) (nxdlRoot : XNode)
    (reader : ReaderSpec) (inputFiles : List String) (name : String)
    (h₁ : nxdlNameOf nxdlPath = some name)
    (h₂ : name ∉ reader.supported_nxdls) :
    convertModel nxdlPath nxdlRoot reader inputFiles =
      ConvertResult.fatal "The chosen NXDL isn't supported by the selected reader." := by
  unfold convertModel
  rw [h₁]
  simp [h₂]

/-- Witness for C6 at a concrete input: the derived root name
`NXellipsometry` is not supported by a reader declaring only
`NXtransmission`, so the run aborts fatally. -/
theorem C6_witness :
    convertModel "NXellipsometry.nxdl.xml" (XNode.mk "root" [] XForest.nil)
      ⟨["NXtransmission"], fun _ _ => none⟩ ["data.asc"] =
      ConvertResult.fatal "The chosen NXDL isn't supported by the selected reader." :=
  C6_unsupported_nxdl_fatal "NXellipsometry.nxdl.xml"
    (XNode.mk "root" [] XForest.nil) ⟨["NXtransmission"], fun _ _ => none⟩
    ["data.asc"] "NXellipsometry" (by decide) (by decide)

/-! ### The transmission reader
(from `nexusparser/tools/dataconverter/readers/transmission/reader.py`) -/

/-- The world the reader runs against: which paths exist on disk
(`os.path.exists`), the line contents of text files, and the dictionaries
produced by the external `json.load` and
`yaml.safe_load`+`flatten_and_replace` calls (`none` models a parse
exception; both libraries are outside the modelled sources). -/
structure FileSys where
  fexists : String → Bool
  flines : String → List String
  jsonData : String → Option Dict
  ymlData : String → Option Dict

/-- Modelled from the spec: `metadata_parsers.MIN_WAVELENGTH` (the module
`readers/transmission/metadata_parsers.py` is not in the sources); the
instrument's lower wavelength bound, a numeric constant. -/
def MIN_WAVELENGTH : PyFloat := ((190 : Int), 0)

/-- Modelled from the spec: `metadata_parsers.MAX_WAVELENGTH` (module missing
from the sources); the instrument's upper wavelength bound. -/
def MAX_WAVELENGTH : PyFloat := ((3350 : Int), 0)

/-- Modelled from the spec: `metadata_parsers.read_start_date`, a transform
function invoked with the full preamble line sequence (module missing from
the sources; only its being a total function of the preamble is used). -/
def read_start_date (metadata : List String) : TValue :=
  TValue.vstr (metadata.getD 3 "")

/-- Modelled from the spec: `metadata_parsers.read_sample_attenuator`
(module missing from the sources), a transform over the full preamble. -/
def read_sample_attenuator (metadata : List String) : TValue :=
  TValue.vstr (metadata.getD 9 "")

/-- Modelled from the spec: `metadata_parsers.read_ref_attenuator` (module
missing from the sources), a transform over the full preamble. -/
def read_ref_attenuator (metadata : List String) : TValue :=
  TValue.vstr (metadata.getD 10 "")

/-- Modelled from the spec: `metadata_parsers.read_uv_monochromator_range`
(module missing from the sources), a transform over the full preamble. -/
def read_uv_monochromator_range (metadata : List String) : TValue :=
  TValue.vstr (metadata.getD 20 "")

/-- Modelled from the spec: `metadata_parsers.read_visir_monochromator_range`
(module missing from the sources), a transform over the full preamble. -/
def read_visir_monochromator_range (metadata : List String) : TValue :=
  TValue.vstr (metadata.getD 21 "")

/-- Modelled from the spec: `metadata_parsers.get_d2_range` (module missing
from the sources); the deuterium source's wavelength range. -/
def get_d2_range (_metadata : List String) : TValue :=
  TValue.vnumlist [MIN_WAVELENGTH, ((319 : Int), 0)]

/-- Modelled from the spec: `metadata_parsers.get_halogen_range` (module
missing from the sources); the halogen source's wavelength range. -/
def get_halogen_range (_metadata : List String) : TValue :=
  TValue.vnumlist [((319 : Int), 0), MAX_WAVELENGTH]

/-- An extraction rule of the `METADATA_MAP`: a fixed preamble line index, a
literal string, a transform function of the full preamble, or a value of any
other type (the source dispatches on `isinstance(..., int)`,
`isinstance(..., str)`, `isfunction(...)`, else warn). -/
inductive Rule where
  | rint (i : Int)
  | rstr (s : String)
  | rfn (f : List String → TValue)
  | oth

/-- The `METADATA_MAP` of `reader.py` lines 37-54, in source (insertion)
order. -/
def METADATA_MAP : List (String × Rule) :=
  [("/ENTRY[entry]/SAMPLE[sample]/name", Rule.rint 8),
   ("/ENTRY[entry]/start_time", Rule.rfn read_start_date),
   ("/ENTRY[entry]/instrument/sample_attenuator/attenuator_transmission",
     Rule.rfn read_sample_attenuator),
   ("/ENTRY[entry]/instrument/ref_attenuator/attenuator_transmission",
     Rule.rfn read_ref_attenuator),
   ("/ENTRY[entry]/instrument/spectrometer/GRATING[grating]/wavelength_range",
     Rule.rfn read_uv_monochromator_range),
   ("/ENTRY[entry]/instrument/spectrometer/GRATING[grating1]/wavelength_range",
     Rule.rfn read_visir_monochromator_range),
   ("/ENTRY[entry]/instrument/SOURCE[source]/type", Rule.rstr "D2"),
   ("/ENTRY[entry]/instrument/SOURCE[source]/wavelength_range",
     Rule.rfn get_d2_range),
   ("/ENTRY[entry]/instrument/SOURCE[source1]/type", Rule.rstr "halogen"),
   ("/ENTRY[entry]/instrument/SOURCE[source1]/wavelength_range",
     Rule.rfn get_halogen_range)]

/-- The `for path, val in METADATA_MAP.items()` loop of `parse_asc`
(`reader.py` lines 199-211): an integer rule reads the preamble line at that
index (an out-of-range index raises, hence `none`), a string rule stores the
literal, a function rule stores the result of calling it on the full
preamble, and any other rule type only prints a warning and continues with
the path unfilled. -/
def evalMetadataRules : List (String × Rule) → List String → Dict → Option Dict
  | [], _, t => some t
  | (path, r) :: rest, metadata, t =>
    match r with
    | Rule.rint i =>
      match pyGet metadata i with
      | some line => evalMetadataRules rest metadata (tset t path (TValue.vstr line))
      | none => none
    | Rule.rstr s => evalMetadataRules rest metadata (tset t path (TValue.vstr s))
    | Rule.rfn f => evalMetadataRules rest metadata (tset t path (f metadata))
    | Rule.oth => evalMetadataRules rest metadata t

/-- `parse_detector_line(line)` with the identity conversion
(`reader.py` lines 86-97): whitespace tokens, each reduced to the part after
its last slash. -/
def parse_detector_line (line : String) : List String :=
  (splitWs line).map (fun s => lastPiece '/' s)

/-- `parse_detector_line(line, float)`: as above but each token converted by
`float`, which may raise. -/
def parseDetectorLineF (line : String) : Option (List PyFloat) :=
  (splitWs line).mapM (fun s => parseFloat (lastPiece '/' s))

/-- The NeXus path for detector index `det_idx`
(`reader.py` lines 120-123). -/
def detPath (det_idx : Nat) : String :=
  if det_idx = 0 then "/ENTRY[entry]/instrument/DETECTOR[detector]"
  else "/ENTRY[entry]/instrument/DETECTOR[detector" ++ Nat.repr det_idx ++ "]"

/-- `convert_detector_to_template` (`reader.py` lines 101-139): emits the
detector's type, response time, optional gain, slit description (`servo`, or
`fixed` with a numeric gap — `float(slit)` may raise) and wavelength range,
all under the detector's path. -/
def convert_detector_to_template (det_type : String) (slit : String)
    (time : PyFloat) (gain : Option PyFloat) (det_idx : Nat)
    (wavelength_range : List PyFloat) : Option Dict :=
  let path := detPath det_idx
  let t := tset (tset emptyDict (path ++ "/type") (TValue.vstr det_type))
    (path ++ "/response_time") (TValue.vnum time)
  let t := match gain with
    | some g => tset t (path ++ "/gain") (TValue.vnum g)
    | none => t
  if slit = "servo" then
    some (tset (tset t (path ++ "/slit/type") (TValue.vstr "servo"))
      (path ++ "/wavelength_range") (TValue.vnumlist wavelength_range))
  else
    match parseFloat slit with
    | none => none
    | some x =>
      some (tset (tset (tset (tset t (path ++ "/slit/type") (TValue.vstr "fixed"))
        (path ++ "/slit/x_gap") (TValue.vnum x))
        (path ++ "/slit/x_gap/@units") (TValue.vstr "nm"))
        (path ++ "/wavelength_range") (TValue.vnumlist wavelength_range))

/-- The settings lines read by `read_detectors` (`reader.py` lines 147-150):
the slit tokens of line 31, the response times of line 32, the gains of line
35 and the change-over wavelengths of line 43; a missing line or failed
`float` conversion raises (`none`). -/
def detectorSettings (metadata : List String) :
    Option (List String × List PyFloat × List PyFloat × List PyFloat) :=
  (pyGet metadata 31).bind fun l31 =>
  (pyGet metadata 32).bind fun l32 =>
  (parseDetectorLineF l32).bind fun detector_times =>
  (pyGet metadata 35).bind fun l35 =>
  (parseDetectorLineF l35).bind fun detector_gains =>
  (pyGet metadata 43).bind fun l43 =>
  ((splitWs l43).mapM parseFloat).bind fun detector_changes =>
  some (parse_detector_line l31, detector_times, detector_gains, detector_changes)

/-- The `PMT` emission of `read_detectors` (`reader.py` lines 154-159):
slit and response time at index 2, no gain, detector index 2, the first
wavelength sub-range. -/
def buildPMT (slits : List String) (times ranges : List PyFloat) : Option Dict :=
  (pyGet slits 2).bind fun s2 =>
  (pyGet times 2).bind fun t2 =>
  (pyGet ranges 0).bind fun r0 =>
  (pyGet ranges 1).bind fun r1 =>
  convert_detector_to_template "PMT" s2 t2 none 2 [r0, r1]

/-- One iteration of the `for name, idx in zip(["PbS", "InGaAs"], [1, 0])`
loop of `read_detectors` (`reader.py` lines 161-171): slit, time and gain at
`idx`, wavelength sub-range `[ranges[2-idx], ranges[3-idx]]`. -/
def buildNIRDet (name : String) (idx : Int) (slits : List String)
    (times gains ranges : List PyFloat) : Option Dict :=
  (pyGet slits idx).bind fun s =>
  (pyGet times idx).bind fun tm =>
  (pyGet gains idx).bind fun g =>
  (pyGet ranges (2 - idx)).bind fun ra =>
  (pyGet ranges (3 - idx)).bind fun rb =>
  convert_detector_to_template name s tm (some g) idx.toNat [ra, rb]

/-- `read_detectors` (`reader.py` lines 142-173), assembled from the helpers
above: parse the settings lines, build the wavelength sub-ranges, emit `PMT`
(index 2), then `PbS` (index 1) and `InGaAs` (index 0), merged in that
order. -/
def read_detectors (metadata : List String) : Option Dict :=
  (detectorSettings metadata).bind fun q =>
  let wavelength_ranges :=
    [MIN_WAVELENGTH] ++ q.2.2.2.reverse ++ [MAX_WAVELENGTH]
  (buildPMT q.1 q.2.1 wavelength_ranges).bind fun pmt =>
  (buildNIRDet "PbS" 1 q.1 q.2.1 q.2.2.1 wavelength_ranges).bind fun pbs =>
  (buildNIRDet "InGaAs" 0 q.1 q.2.1 q.2.2.1 wavelength_ranges).bind fun ingaas =>
  some (tupdate (tupdate (tupdate emptyDict pmt) pbs) ingaas)
/-- The dataframe produced by `pandas.read_csv(fobj, delim_whitespace=True,
header=None, index_col=0)`: the first whitespace column is the index, the
rest are the value columns. -/
structure DFrame where
  dindex : List PyFloat
  dvalues : List (List PyFloat)

/-- Build the dataframe from the data-block lines: nonblank lines are
whitespace-tokenized, every token must parse as a number, all rows must have
the same width with at least one value column, and the block must be
nonempty; otherwise `pandas` raises (`none`). -/
def mkDF (dataLines : List String) : Option DFrame := do
  let rows := (dataLines.map splitWs).filter (fun r => r ≠ [])
  let prows ← rows.mapM (fun r => r.mapM parseFloat)
  match prows with
  | [] => none
  | first :: _ =>
    if prows.all (fun r => r.length = first.length) ∧ 2 ≤ first.length then
      some ⟨prows.map (fun r => r.headD ((0 : Int), 0)),
            prows.map (fun r => r.drop 1)⟩
    else none

/-- `data_to_template` (`reader.py` lines 63-83), the source's nine
assignments in order; note `@signal` is first set to `"data"` and then
overwritten with `"transmission"`. -/
def data_to_template (data : DFrame) : Dict :=
  let t := tset emptyDict "/ENTRY[entry]/data/@signal" (TValue.vstr "data")
  let t := tset t "/ENTRY[entry]/data/@axes" (TValue.vstr "wavelength")
  let t := tset t "/ENTRY[entry]/data/type" (TValue.vstr "transmission")
  let t := tset t "/ENTRY[entry]/data/@signal" (TValue.vstr "transmission")
  let t := tset t "/ENTRY[entry]/data/wavelength" (TValue.vnumlist data.dindex)
  let t := tset t "/ENTRY[entry]/instrument/spectrometer/wavelength"
    (TValue.vnumlist data.dindex)
  let t := tset t "/ENTRY[entry]/data/wavelength/@units" (TValue.vstr "nm")
  let t := tset t "/ENTRY[entry]/data/transmission"
    (TValue.vnumlist (data.dvalues.map (fun r => r.headD ((0 : Int), 0))))
  tset t "/ENTRY[entry]/instrument/measured_data" (TValue.vmat data.dvalues)

/-- `parse_asc` (`reader.py` lines 176-216): strip-split the file at the
`#DATA` sentinel into preamble and data block, parse the data block as a
dataframe, evaluate the `METADATA_MAP` rules, then layer in the detector
cluster and the data entries. -/
def parse_asc (fs : FileSys) (file_path : String) : Option Dict :=
  let allLines := fs.flines file_path
  let metadata := (allLines.takeWhile (fun l => sstrip l ≠ "#DATA")).map sstrip
  let dataLines := ((allLines.dropWhile (fun l => sstrip l ≠ "#DATA")).drop 1)
  match mkDF dataLines with
  | none => none
  | some df =>
    match evalMetadataRules METADATA_MAP metadata emptyDict with
    | none => none
    | some t1 =>
      match read_detectors metadata with
      | none => none
      | some t2 => some (tupdate (tupdate t1 t2) (data_to_template df))

/-- `parse_json` (`reader.py` lines 219-229): delegates entirely to the
external `json.load`. -/
def parse_json (fs : FileSys) (file_path : String) : Option Dict :=
  fs.jsonData file_path

/-- `parse_yml` (`reader.py` lines 232-242): delegates to the external
`yaml.safe_load` plus `flatten_and_replace`. -/
def parse_yml (fs : FileSys) (file_path : String) : Option Dict :=
  fs.ymlData file_path

/-- The keys of the `extensions` dispatch dictionary of
`TransmissionReader.read` (`reader.py` lines 259-264). -/
def recognizedExts : List String := [".asc", ".json", ".yml", ".yaml"]

/-- Dispatch on the file extension (the `extensions` dictionary); the default
`lambda _: {}` branch is unreachable after the membership check. -/
def dispatchExt (fs : FileSys) (ext : String) (file_path : String) : Option Dict :=
  if ext = ".asc" then parse_asc fs file_path
  else if ext = ".json" then parse_json fs file_path
  else if ext = ".yml" ∨ ext = ".yaml" then parse_yml fs file_path
  else some emptyDict

/-- One iteration of the `for file_path in sorted_paths` loop
(`reader.py` lines 275-287): skip (with a warning) unrecognized extensions
and nonexistent files, otherwise parse and `template.update`. -/
def processFile (fs : FileSys) (t : Dict) (file_path : String) : Option Dict :=
  let extension := extOf file_path
  if extension ∉ recognizedExts then some t
  else if fs.fexists file_path = false then some t
  else
    match dispatchExt fs extension file_path with
    | none => none
    | some d => some (tupdate t d)

/-- The whole file loop of `TransmissionReader.read`. -/
def processFiles (fs : FileSys) : Dict → List String → Option Dict
  | t, [] => some t
  | t, p :: rest =>
    match processFile fs t p with
    | none => none
    | some t' => processFiles fs t' rest

/-- `sorted(file_paths, key=lambda f: os.path.splitext(f)[1])`
(`reader.py` line 274): stable sort by the extension string. -/
def sortByExt (file_paths : List String) : List String :=
  pySort (fun a b => cllLe (extOf a).data (extOf b).data) file_paths

/-- The five fixed template entries written by `TransmissionReader.read`
before any file is processed (`reader.py` lines 266-272). -/
def applyFixedKeys (t : Dict) : Dict :=
  tset (tset (tset (tset (tset t
    "/@default" (TValue.vstr "entry"))
    "/ENTRY[entry]/@default" (TValue.vstr "data"))
    "/ENTRY[entry]/definition" (TValue.vstr "NXtransmission"))
    "/ENTRY[entry]/definition/@version" (TValue.vstr "v2022.06"))
    "/ENTRY[entry]/definition/@url"
    (TValue.vstr
      "https://fairmat-experimental.github.io/nexus-fairmat-proposal/50433d9039b3f33299bab338998acb5335cd8951/index.html")

/-- `TransmissionReader.supported_nxdls` (`reader.py` line 250). -/
def TransmissionReader.supported_nxdls : List String := ["NXtransmission"]

/-- `TransmissionReader.read` (`reader.py` lines 252-289): set the fixed
entries, then process the input files sorted by extension. -/
def TransmissionReader.read (fs : FileSys) (template : Dict)
    (file_paths : List String) : Option Dict :=
  processFiles fs (applyFixedKeys template) (sortByExt file_paths)

/-! ### Helper lemmas about the reader -/

theorem string_data_inj {s u : String} (h : s.data = u.data) : s = u := by
  cases s
  cases u
  exact congrArg String.mk h

@[simp]
theorem strApp_left_inj (p a b : String) : (p ++ a = p ++ b) ↔ a = b := by
  constructor
  · intro h
    have hd : (p ++ a).data = (p ++ b).data := by rw [h]
    rw [String.data_append, String.data_append] at hd
    exact string_data_inj (List.append_cancel_left hd)
  · intro h
    rw [h]

theorem tset_keeps (t : Dict) (k' : String) (v : TValue) {k : String}
    (h : t k ≠ none) : tset t k' v k ≠ none := by
  by_cases hk : k = k'
  · subst hk
    rw [tset_self]
    simp
  · rw [tset_ne _ _ _ hk]
    exact h

theorem tupdate_cases (t d : Dict) (k : String) (h : tupdate t d k ≠ none) :
    d k ≠ none ∨ t k ≠ none := by
  unfold tupdate at h
  cases hd : d k with
  | some v => exact Or.inl (by simp [hd])
  | none =>
    rw [hd] at h
    exact Or.inr h

theorem applyFixedKeys_preserves (t : Dict) (k : String) (h : t k ≠ none) :
    applyFixedKeys t k ≠ none := by
  unfold applyFixedKeys
  exact tset_keeps _ _ _ (tset_keeps _ _ _ (tset_keeps _ _ _ (tset_keeps _ _ _
    (tset_keeps _ _ _ h))))

theorem processFile_preserves (fs : FileSys) (t t₂ : Dict) (p : String)
    (k : String) (h : processFile fs t p = some t₂) (hk : t k ≠ none) :
    t₂ k ≠ none := by
  simp only [processFile] at h
  by_cases h1 : extOf p ∉ recognizedExts
  · rw [if_pos h1] at h
    cases h
    exact hk
  · rw [if_neg h1] at h
    by_cases h2 : fs.fexists p = false
    · rw [if_pos h2] at h
      cases h
      exact hk
    · rw [if_neg h2] at h
      cases hd : dispatchExt fs (extOf p) p with
      | none =>
        rw [hd] at h
        cases h
      | some d =>
        rw [hd] at h
        cases h
        exact tupdate_preserves t d hk

theorem processFiles_preserves (fs : FileSys) (l : List String) :
    ∀ (t t' : Dict) (k : String), processFiles fs t l = some t' →
      t k ≠ none → t' k ≠ none := by
  induction l with
  | nil =>
    intro t t' k h hk
    cases h
    exact hk
  | cons p rest ih =>
    intro t t' k h hk
    unfold processFiles at h
    split at h
    · cases h
    · next t₂ h₂ =>
      exact ih t₂ t' k h (processFile_preserves fs t t₂ p k h₂ hk)

/-- If none of the remaining rules writes to `k`, the metadata loop leaves
`k`'s binding unchanged. -/
theorem evalMetadataRules_not_mem (rules : List (String × Rule)) :
    ∀ (metadata : List String) (t d : Dict) (k : String),
      evalMetadataRules rules metadata t = some d →
      (∀ pr ∈ rules, pr.1 ≠ k) → d k = t k := by
  induction rules with
  | nil =>
    intro metadata t d k h _
    cases h
    rfl
  | cons pr rest ih =>
    obtain ⟨path, r⟩ := pr
    intro metadata t d k h hne
    have hpath : path ≠ k := hne (path, r) (List.mem_cons_self _ _)
    have hrest : ∀ q ∈ rest, q.1 ≠ k := fun q hq =>
      hne q (List.mem_cons_of_mem _ hq)
    cases r with
    | rint i =>
      simp only [evalMetadataRules] at h
      cases hline : pyGet metadata i with
      | none =>
        rw [hline] at h
        cases h
      | some line =>
        rw [hline] at h
        rw [ih metadata _ d k h hrest, tset_ne _ _ _ (fun he => hpath he.symm)]
    | rstr s =>
      simp only [evalMetadataRules] at h
      rw [ih metadata _ d k h hrest, tset_ne _ _ _ (fun he => hpath he.symm)]
    | rfn f =>
      simp only [evalMetadataRules] at h
      rw [ih metadata _ d k h hrest, tset_ne _ _ _ (fun he => hpath he.symm)]
    | oth =>
      simp only [evalMetadataRules] at h
      exact ih metadata t d k h hrest

/-! ### Claims C2, C4, C5, C9, C10 -/

/-- Claim C2: whatever files it is given and whatever they contain, a
completed `TransmissionReader.read` returns a template that still contains
every key of the input template — keys are only added or overwritten, never
removed. -/
theorem C2_read_never_removes_keys (fs : FileSys) (t : Dict)
    (fps : List String) (t' : Dict) (k : String)
    (h : TransmissionReader.read fs t fps = some t') (hk : t k ≠ none) :
    t' k ≠ none := by
  unfold TransmissionReader.read at h
  exact processFiles_preserves fs (sortByExt fps) (applyFixedKeys t) t' k h
    (applyFixedKeys_preserves t k hk)

/-- Witness for C2: a concrete one-key template run through an empty read
still has its key. -/
theorem C2_witness :
    (applyFixedKeys (tset emptyDict "a" (TValue.vstr "x"))) "a" ≠ none :=
  C2_read_never_removes_keys
    ⟨fun _ => false, fun _ => [], fun _ => none, fun _ => none⟩
    (tset emptyDict "a" (TValue.vstr "x")) []
    (applyFixedKeys (tset emptyDict "a" (TValue.vstr "x"))) "a" rfl (by decide)

/-- Claim C4: one step of the metadata-map loop — an integer rule stores the
preamble line at that index verbatim as a string, a string rule stores the
literal, a function rule stores the result of calling it on the full
preamble, and a rule of any other type only warns: evaluation continues with
the remaining rules and (when no later rule writes that path) the path stays
unfilled. -/
theorem C4_metadata_rule_dispatch (metadata : List String) (t : Dict)
    (path : String) (rest : List (String × Rule)) :
    (∀ (i : Int) (line : String), pyGet metadata i = some line →
      evalMetadataRules ((path, Rule.rint i) :: rest) metadata t
        = evalMetadataRules rest metadata (tset t path (TValue.vstr line)))
    ∧ (∀ s : String,
      evalMetadataRules ((path, Rule.rstr s) :: rest) metadata t
        = evalMetadataRules rest metadata (tset t path (TValue.vstr s)))
    ∧ (∀ f : List String → TValue,
      evalMetadataRules ((path, Rule.rfn f) :: rest) metadata t
        = evalMetadataRules rest metadata (tset t path (f metadata)))
    ∧ (evalMetadataRules ((path, Rule.oth) :: rest) metadata t
        = evalMetadataRules rest metadata t)
    ∧ (∀ d : Dict, evalMetadataRules ((path, Rule.oth) :: rest) metadata t = some d →
        (∀ pr ∈ rest, pr.1 ≠ path) → d path = t path) := by
  refine ⟨?_, fun s => by simp only [evalMetadataRules],
    fun f => by simp only [evalMetadataRules], by simp only [evalMetadataRules], ?_⟩
  · intro i line hline
    simp only [evalMetadataRules]
    rw [hline]
  · intro d h hrest
    simp only [evalMetadataRules] at h
    exact evalMetadataRules_not_mem rest metadata t d path h hrest

/-- Witness for C4: an integer rule at a concrete in-range index stores that
line, with a trailing other-typed rule skipped. -/
theorem C4_witness :
    evalMetadataRules [("k", Rule.rint 1), ("k2", Rule.oth)] ["a", "b"]
      emptyDict = some (tset emptyDict "k" (TValue.vstr "b")) := by
  rw [(C4_metadata_rule_dispatch ["a", "b"] emptyDict "k"
    [("k2", Rule.oth)]).1 1 "b" (by decide)]
  rfl

/-- Claim C5: a file whose extension is unrecognized or which does not exist
is skipped — the loop step is a no-op (so the template is unchanged by that
file and the remaining files are still processed), and a read of just that
file returns the fixed-keys template without raising. -/
theorem C5_skip_unrecognized_or_missing (fs : FileSys) (p : String)
    (h : extOf p ∉ recognizedExts ∨ fs.fexists p = false) :
    (∀ (t : Dict) (rest : List String),
      processFiles fs t (p :: rest) = processFiles fs t rest)
    ∧ ∀ t : Dict, TransmissionReader.read fs t [p] = some (applyFixedKeys t) := by
  have hskip : ∀ t : Dict, processFile fs t p = some t := by
    intro t
    unfold processFile
    rcases h with h | h
    · rw [if_pos h]
    · by_cases hext : extOf p ∉ recognizedExts
      · rw [if_pos hext]
      · rw [if_neg hext, if_pos h]
  constructor
  · intro t rest
    simp only [processFiles, hskip]
  · intro t
    unfold TransmissionReader.read
    have hs : sortByExt [p] = [p] := rfl
    rw [hs]
    simp only [processFiles, hskip]

/-- Witness for C5: a single `.csv` file (unsupported extension) on an
all-files-exist filesystem leaves the template at just the fixed keys. -/
theorem C5_witness :
    TransmissionReader.read
      ⟨fun _ => true, fun _ => [], fun _ => none, fun _ => none⟩
      emptyDict ["x.csv"] = some (applyFixedKeys emptyDict) :=
  (C5_skip_unrecognized_or_missing
    ⟨fun _ => true, fun _ => [], fun _ => none, fun _ => none⟩
    "x.csv" (Or.inl (by decide))).2 emptyDict

/-- Claim C9: `TransmissionReader.read` sets the five fixed entries before
touching any file — a read with no input files returns the input template
with exactly those five entries layered on, each with its fixed value, and a
read with any file list factors through that fixed-keys template. -/
theorem C9_fixed_entries (fs : FileSys) (t : Dict) :
    TransmissionReader.read fs t [] = some (applyFixedKeys t)
    ∧ applyFixedKeys t "/@default" = some (TValue.vstr "entry")
    ∧ applyFixedKeys t "/ENTRY[entry]/@default" = some (TValue.vstr "data")
    ∧ applyFixedKeys t "/ENTRY[entry]/definition"
        = some (TValue.vstr "NXtransmission")
    ∧ applyFixedKeys t "/ENTRY[entry]/definition/@version"
        = some (TValue.vstr "v2022.06")
    ∧ applyFixedKeys t "/ENTRY[entry]/definition/@url"
        = some (TValue.vstr
          "https://fairmat-experimental.github.io/nexus-fairmat-proposal/50433d9039b3f33299bab338998acb5335cd8951/index.html")
    ∧ ∀ fps : List String, TransmissionReader.read fs t fps
        = processFiles fs (applyFixedKeys t) (sortByExt fps) := by
  refine ⟨rfl, ?_, ?_, ?_, ?_, ?_, fun fps => rfl⟩ <;> simp [applyFixedKeys, tset]

/-- Claim C10: for every dataframe, `data_to_template` ends with
`@signal = "transmission"` (the earlier `"data"` assignment to the same key
is overwritten), `@axes = "wavelength"` and `type = "transmission"`. -/
theorem C10_data_signal_overwritten (df : DFrame) :
    data_to_template df "/ENTRY[entry]/data/@signal"
        = some (TValue.vstr "transmission")
    ∧ data_to_template df "/ENTRY[entry]/data/@axes"
        = some (TValue.vstr "wavelength")
    ∧ data_to_template df "/ENTRY[entry]/data/type"
        = some (TValue.vstr "transmission") := by
  refine ⟨?_, ?_, ?_⟩ <;> simp [data_to_template, tset]

/-! ### Claim C3: order (in)dependence of the file list -/

/-- Sorting by extension gives the same list for any two permutations whose
extensions are pairwise distinct. -/
theorem sortByExt_eq_of_perm (l₁ l₂ : List String) (hp : l₁.Perm l₂)
    (hnd : (l₁.map extOf).Nodup) : sortByExt l₁ = sortByExt l₂ := by
  have hto : ∀ a b : String,
      cllLe (extOf a).data (extOf b).data = true ∨
        cllLe (extOf b).data (extOf a).data = true :=
    fun a b => cllLe_total (extOf a).data (extOf b).data
  have htr : ∀ a b c : String,
      cllLe (extOf a).data (extOf b).data = true →
      cllLe (extOf b).data (extOf c).data = true →
      cllLe (extOf a).data (extOf c).data = true :=
    fun a b c => cllLe_trans (extOf a).data (extOf b).data (extOf c).data
  have hkey : ((pySort (fun a b => cllLe (extOf a).data (extOf b).data) l₁).map
      (fun f => (extOf f).data)).Nodup := by
    have h₁ : (l₁.map (fun f => (extOf f).data)).Nodup := by
      have hdataInj : Function.Injective String.data :=
        fun _ _ h => string_data_inj h
      have := List.Nodup.map hdataInj hnd
      simpa [List.map_map, Function.comp] using this
    exact ((pySort_perm _ l₁).map (fun f => (extOf f).data)).nodup_iff.mpr h₁
  exact sorted_perm_nodupkeys_eq
    (fun a b => cllLe (extOf a).data (extOf b).data)
    (fun f => (extOf f).data)
    (fun a b => cllLe_antisymm (extOf a).data (extOf b).data)
    (pySort _ l₁) (pySort _ l₂)
    (((pySort_perm _ l₁).trans hp).trans (pySort_perm _ l₂).symm)
    (pySort_pairwise _ hto htr l₁)
    (pySort_pairwise _ hto htr l₂)
    hkey

/-- Claim C3, amended: `TransmissionReader.read` is order-independent for
every pair of file-path sequences that are permutations of each other **in
which no two files share the same extension** — the files are processed
sorted by extension string (stably), so permuting distinct-extension inputs
yields the identical template. -/
theorem C3_sorted_extension_order_independence (fs : FileSys) (t : Dict)
    (l₁ l₂ : List String) (hp : l₁.Perm l₂)
    (hnd : (l₁.map extOf).Nodup) :
    TransmissionReader.read fs t l₁ = TransmissionReader.read fs t l₂ := by
  unfold TransmissionReader.read
  rw [sortByExt_eq_of_perm l₁ l₂ hp hnd]

/-- Witness for the amended C3: the spec's own example pair
`[b.asc, a.yml]` / `[a.yml, b.asc]` (distinct extensions) read identically. -/
theorem C3_witness :
    TransmissionReader.read
      ⟨fun _ => false, fun _ => [], fun _ => none, fun _ => none⟩
      emptyDict ["b.asc", "a.yml"] =
    TransmissionReader.read
      ⟨fun _ => false, fun _ => [], fun _ => none, fun _ => none⟩
      emptyDict ["a.yml", "b.asc"] :=
  C3_sorted_extension_order_independence
    ⟨fun _ => false, fun _ => [], fun _ => none, fun _ => none⟩
    emptyDict ["b.asc", "a.yml"] ["a.yml", "b.asc"] (by decide) (by decide)

/-- Two yml files that both set the key `"X"`, with different values. -/
def fsC3 : FileSys :=
  { fexists := fun _ => true
    flines := fun _ => []
    jsonData := fun _ => none
    ymlData := fun p =>
      if p = "a.yml" then some (tset emptyDict "X" (TValue.vstr "1"))
      else if p = "b.yml" then some (tset emptyDict "X" (TValue.vstr "2"))
      else none }

/-- Counterexample to C3 as stated: the sort key is the extension only and
Python's sort is stable, so two files with the *same* extension keep their
argument order — permuting `[a.yml, b.yml]` changes which file wins the
shared key `"X"`, and the resulting templates differ. -/
theorem C3_counterexample :
    TransmissionReader.read fsC3 emptyDict ["a.yml", "b.yml"] ≠
      TransmissionReader.read fsC3 emptyDict ["b.yml", "a.yml"] := by
  intro h
  have e1 : (TransmissionReader.read fsC3 emptyDict ["a.yml", "b.yml"]).bind
      (fun t => t "X") = some (TValue.vstr "2") := by decide
  have e2 : (TransmissionReader.read fsC3 emptyDict ["b.yml", "a.yml"]).bind
      (fun t => t "X") = some (TValue.vstr "1") := by decide
  have h2 : some (TValue.vstr "2") = some (TValue.vstr "1") := by
    rw [← e1, ← e2, h]
  exact absurd h2 (by decide)

/-! ### Claim C8: the end-to-end `.asc` scenario -/

theorem tupdate_empty (dd : Dict) (k : String) : tupdate emptyDict dd k = dd k := by
  unfold tupdate emptyDict
  cases dd k <;> simp

theorem tupdate_isSome (t dd : Dict) {k : String} (h : (dd k).isSome = true) :
    ((tupdate t dd) k).isSome = true := by
  obtain ⟨v, hv⟩ := Option.isSome_iff_exists.mp h
  rw [tupdate_of_some _ _ hv]
  rfl

/-- The keys `data_to_template` can write. -/
def dttKeys : List String :=
  ["/ENTRY[entry]/data/@signal", "/ENTRY[entry]/data/@axes",
   "/ENTRY[entry]/data/type", "/ENTRY[entry]/data/wavelength",
   "/ENTRY[entry]/instrument/spectrometer/wavelength",
   "/ENTRY[entry]/data/wavelength/@units", "/ENTRY[entry]/data/transmission",
   "/ENTRY[entry]/instrument/measured_data"]

theorem data_to_template_dom (df : DFrame) (k : String)
    (h : data_to_template df k ≠ none) : k ∈ dttKeys := by
  simp only [data_to_template] at h
  rcases tset_cases _ _ _ h with he | h
  · rw [he]; decide
  rcases tset_cases _ _ _ h with he | h
  · rw [he]; decide
  rcases tset_cases _ _ _ h with he | h
  · rw [he]; decide
  rcases tset_cases _ _ _ h with he | h
  · rw [he]; decide
  rcases tset_cases _ _ _ h with he | h
  · rw [he]; decide
  rcases tset_cases _ _ _ h with he | h
  · rw [he]; decide
  rcases tset_cases _ _ _ h with he | h
  · rw [he]; decide
  rcases tset_cases _ _ _ h with he | h
  · rw [he]; decide
  rcases tset_cases _ _ _ h with he | h
  · rw [he]; decide
  exact absurd rfl h

theorem data_to_template_lookups (df : DFrame) :
    data_to_template df "/ENTRY[entry]/data/wavelength"
        = some (TValue.vnumlist df.dindex)
    ∧ data_to_template df "/ENTRY[entry]/data/transmission"
        = some (TValue.vnumlist
            (df.dvalues.map (fun r => r.headD ((0 : Int), 0)))) := by
  refine ⟨?_, ?_⟩ <;> simp [data_to_template, tset]

/-- The keys `convert_detector_to_template` can write for detector `idx`. -/
def cdtKeys (idx : Nat) : List String :=
  [detPath idx ++ "/type", detPath idx ++ "/response_time",
   detPath idx ++ "/gain", detPath idx ++ "/slit/type",
   detPath idx ++ "/slit/x_gap", detPath idx ++ "/slit/x_gap/@units",
   detPath idx ++ "/wavelength_range"]

theorem cdt_facts (det_type slit : String) (time : PyFloat)
    (gain : Option PyFloat) (idx : Nat) (wr : List PyFloat) (d : Dict)
    (h : convert_detector_to_template det_type slit time gain idx wr = some d) :
    d (detPath idx ++ "/type") = some (TValue.vstr det_type)
    ∧ (d (detPath idx ++ "/response_time")).isSome = true
    ∧ (d (detPath idx ++ "/slit/type")).isSome = true
    ∧ (d (detPath idx ++ "/wavelength_range")).isSome = true
    ∧ ∀ k, d k ≠ none → k ∈ cdtKeys idx := by
  simp only [convert_detector_to_template] at h
  cases gain with
  | none =>
    by_cases hs : slit = "servo"
    · rw [if_pos hs] at h
      cases h
      refine ⟨by simp [tset], by simp [tset], by simp [tset], by simp [tset], ?_⟩
      intro k hk
      rcases tset_cases _ _ _ hk with he | hk
      · rw [he]; simp [cdtKeys]
      rcases tset_cases _ _ _ hk with he | hk
      · rw [he]; simp [cdtKeys]
      rcases tset_cases _ _ _ hk with he | hk
      · rw [he]; simp [cdtKeys]
      rcases tset_cases _ _ _ hk with he | hk
      · rw [he]; simp [cdtKeys]
      exact absurd rfl hk
    · rw [if_neg hs] at h
      split at h
      · cases h
      · cases h
        refine ⟨by simp [tset], by simp [tset], by simp [tset], by simp [tset], ?_⟩
        intro k hk
        rcases tset_cases _ _ _ hk with he | hk
        · rw [he]; simp [cdtKeys]
        rcases tset_cases _ _ _ hk with he | hk
        · rw [he]; simp [cdtKeys]
        rcases tset_cases _ _ _ hk with he | hk
        · rw [he]; simp [cdtKeys]
        rcases tset_cases _ _ _ hk with he | hk
        · rw [he]; simp [cdtKeys]
        rcases tset_cases _ _ _ hk with he | hk
        · rw [he]; simp [cdtKeys]
        rcases tset_cases _ _ _ hk with he | hk
        · rw [he]; simp [cdtKeys]
        exact absurd rfl hk
  | some g =>
    by_cases hs : slit = "servo"
    · rw [if_pos hs] at h
      cases h
      refine ⟨by simp [tset], by simp [tset], by simp [tset], by simp [tset], ?_⟩
      intro k hk
      rcases tset_cases _ _ _ hk with he | hk
      · rw [he]; simp [cdtKeys]
      rcases tset_cases _ _ _ hk with he | hk
      · rw [he]; simp [cdtKeys]
      rcases tset_cases _ _ _ hk with he | hk
      · rw [he]; simp [cdtKeys]
      rcases tset_cases _ _ _ hk with he | hk
      · rw [he]; simp [cdtKeys]
      rcases tset_cases _ _ _ hk with he | hk
      · rw [he]; simp [cdtKeys]
      exact absurd rfl hk
    · rw [if_neg hs] at h
      split at h
      · cases h
      · cases h
        refine ⟨by simp [tset], by simp [tset], by simp [tset], by simp [tset], ?_⟩
        intro k hk
        rcases tset_cases _ _ _ hk with he | hk
        · rw [he]; simp [cdtKeys]
        rcases tset_cases _ _ _ hk with he | hk
        · rw [he]; simp [cdtKeys]
        rcases tset_cases _ _ _ hk with he | hk
        · rw [he]; simp [cdtKeys]
        rcases tset_cases _ _ _ hk with he | hk
        · rw [he]; simp [cdtKeys]
        rcases tset_cases _ _ _ hk with he | hk
        · rw [he]; simp [cdtKeys]
        rcases tset_cases _ _ _ hk with he | hk
        · rw [he]; simp [cdtKeys]
        rcases tset_cases _ _ _ hk with he | hk
        · rw [he]; simp [cdtKeys]
        exact absurd rfl hk

theorem none_of_cdt_dom {dd : Dict} {idx : Nat}
    (hdom : ∀ k, dd k ≠ none → k ∈ cdtKeys idx) {k : String}
    (hk : k ∉ cdtKeys idx) : dd k = none := by
  by_contra hne
  exact hk (hdom k hne)

theorem read_detectors_facts (metadata : List String) (d : Dict)
    (h : read_detectors metadata = some d) :
    d (detPath 2 ++ "/type") = some (TValue.vstr "PMT")
    ∧ (d (detPath 2 ++ "/response_time")).isSome = true
    ∧ (d (detPath 2 ++ "/slit/type")).isSome = true
    ∧ (d (detPath 2 ++ "/wavelength_range")).isSome = true
    ∧ d (detPath 1 ++ "/type") = some (TValue.vstr "PbS")
    ∧ (d (detPath 1 ++ "/response_time")).isSome = true
    ∧ (d (detPath 1 ++ "/slit/type")).isSome = true
    ∧ (d (detPath 1 ++ "/wavelength_range")).isSome = true
    ∧ d (detPath 0 ++ "/type") = some (TValue.vstr "InGaAs")
    ∧ (d (detPath 0 ++ "/response_time")).isSome = true
    ∧ (d (detPath 0 ++ "/slit/type")).isSome = true
    ∧ (d (detPath 0 ++ "/wavelength_range")).isSome = true
    ∧ ∀ k, d k ≠ none → k ∈ cdtKeys 2 ++ cdtKeys 1 ++ cdtKeys 0 := by
  unfold read_detectors at h
  simp only [Option.bind_eq_some, Option.some.injEq] at h
  obtain ⟨q, hq, pmt, hpmt, pbs, hpbs, ingaas, hing, hd⟩ := h
  subst hd
  unfold buildPMT at hpmt
  simp only [Option.bind_eq_some] at hpmt
  obtain ⟨s2, hs2, t2, ht2, r0, hr0, r1, hr1, hcdt2⟩ := hpmt
  unfold buildNIRDet at hpbs
  simp only [Option.bind_eq_some] at hpbs
  obtain ⟨s1, hs1, tm1, htm1, g1, hg1, ra1, hra1, rb1, hrb1, hcdt1⟩ := hpbs
  unfold buildNIRDet at hing
  simp only [Option.bind_eq_some] at hing
  obtain ⟨s0, hs0, tm0, htm0, g0, hg0, ra0, hra0, rb0, hrb0, hcdt0⟩ := hing
  obtain ⟨hty2, hrt2, hst2, hwr2, hdom2⟩ := cdt_facts _ _ _ _ _ _ _ hcdt2
  obtain ⟨hty1, hrt1, hst1, hwr1, hdom1⟩ := cdt_facts _ _ _ _ _ _ _ hcdt1
  obtain ⟨hty0, hrt0, hst0, hwr0, hdom0⟩ := cdt_facts _ _ _ _ _ _ _ hcdt0
  refine ⟨?_, ?_, ?_, ?_, ?_, ?_, ?_, ?_, ?_, ?_, ?_, ?_, ?_⟩
  · rw [tupdate_of_none _ _ (none_of_cdt_dom hdom0 (by decide)),
      tupdate_of_none _ _ (none_of_cdt_dom hdom1 (by decide)), tupdate_empty]
    exact hty2
  · rw [tupdate_of_none _ _ (none_of_cdt_dom hdom0 (by decide)),
      tupdate_of_none _ _ (none_of_cdt_dom hdom1 (by decide)), tupdate_empty]
    exact hrt2
  · rw [tupdate_of_none _ _ (none_of_cdt_dom hdom0 (by decide)),
      tupdate_of_none _ _ (none_of_cdt_dom hdom1 (by decide)), tupdate_empty]
    exact hst2
  · rw [tupdate_of_none _ _ (none_of_cdt_dom hdom0 (by decide)),
      tupdate_of_none _ _ (none_of_cdt_dom hdom1 (by decide)), tupdate_empty]
    exact hwr2
  · rw [tupdate_of_none _ _ (none_of_cdt_dom hdom0 (by decide))]
    exact tupdate_of_some _ _ hty1
  · rw [tupdate_of_none _ _ (none_of_cdt_dom hdom0 (by decide))]
    exact tupdate_isSome _ _ hrt1
  · rw [tupdate_of_none _ _ (none_of_cdt_dom hdom0 (by decide))]
    exact tupdate_isSome _ _ hst1
  · rw [tupdate_of_none _ _ (none_of_cdt_dom hdom0 (by decide))]
    exact tupdate_isSome _ _ hwr1
  · exact tupdate_of_some _ _ hty0
  · exact tupdate_isSome _ _ hrt0
  · exact tupdate_isSome _ _ hst0
  · exact tupdate_isSome _ _ hwr0
  · intro k hk
    rcases tupdate_cases _ _ _ hk with hki | hk
    · exact List.mem_append.mpr (Or.inr (hdom0 k hki))
    rcases tupdate_cases _ _ _ hk with hkp | hk
    · exact List.mem_append.mpr
        (Or.inl (List.mem_append.mpr (Or.inr (hdom1 k hkp))))
    rw [tupdate_empty] at hk
    exact List.mem_append.mpr (Or.inl (List.mem_append.mpr (Or.inl (hdom2 k hk))))

theorem parse_asc_facts (fs : FileSys) (p : String) (d : Dict)
    (h : parse_asc fs p = some d) :
    (d "/ENTRY[entry]/data/wavelength").isSome = true
    ∧ (d "/ENTRY[entry]/data/transmission").isSome = true
    ∧ d (detPath 2 ++ "/type") = some (TValue.vstr "PMT")
    ∧ (d (detPath 2 ++ "/response_time")).isSome = true
    ∧ (d (detPath 2 ++ "/slit/type")).isSome = true
    ∧ (d (detPath 2 ++ "/wavelength_range")).isSome = true
    ∧ d (detPath 1 ++ "/type") = some (TValue.vstr "PbS")
    ∧ (d (detPath 1 ++ "/response_time")).isSome = true
    ∧ (d (detPath 1 ++ "/slit/type")).isSome = true
    ∧ (d (detPath 1 ++ "/wavelength_range")).isSome = true
    ∧ d (detPath 0 ++ "/type") = some (TValue.vstr "InGaAs")
    ∧ (d (detPath 0 ++ "/response_time")).isSome = true
    ∧ (d (detPath 0 ++ "/slit/type")).isSome = true
    ∧ (d (detPath 0 ++ "/wavelength_range")).isSome = true
    ∧ d "/ENTRY[entry]/definition" = none := by
  simp only [parse_asc] at h
  split at h
  · cases h
  · next df hdf =>
    split at h
    · cases h
    · next t1 ht1 =>
      split at h
      · cases h
      · next t2 ht2 =>
        cases h
        obtain ⟨f2t, f2r, f2s, f2w, f1t, f1r, f1s, f1w, f0t, f0r, f0s, f0w, fdom⟩ :=
          read_detectors_facts _ _ ht2
        have hdata : ∀ k : String, k ∉ dttKeys → data_to_template df k = none := by
          intro k hk
          by_contra hne
          exact hk (data_to_template_dom df k hne)
        have hdet : ∀ k : String, k ∉ cdtKeys 2 ++ cdtKeys 1 ++ cdtKeys 0 →
            t2 k = none := by
          intro k hk
          by_contra hne
          exact hk (fdom k hne)
        refine ⟨?_, ?_, ?_, ?_, ?_, ?_, ?_, ?_, ?_, ?_, ?_, ?_, ?_, ?_, ?_⟩
        · rw [tupdate_of_some _ _ (data_to_template_lookups df).1]
          rfl
        · rw [tupdate_of_some _ _ (data_to_template_lookups df).2]
          rfl
        · rw [tupdate_of_none _ _ (hdata _ (by decide))]
          exact tupdate_of_some _ _ f2t
        · rw [tupdate_of_none _ _ (hdata _ (by decide))]
          exact tupdate_isSome _ _ f2r
        · rw [tupdate_of_none _ _ (hdata _ (by decide))]
          exact tupdate_isSome _ _ f2s
        · rw [tupdate_of_none _ _ (hdata _ (by decide))]
          exact tupdate_isSome _ _ f2w
        · rw [tupdate_of_none _ _ (hdata _ (by decide))]
          exact tupdate_of_some _ _ f1t
        · rw [tupdate_of_none _ _ (hdata _ (by decide))]
          exact tupdate_isSome _ _ f1r
        · rw [tupdate_of_none _ _ (hdata _ (by decide))]
          exact tupdate_isSome _ _ f1s
        · rw [tupdate_of_none _ _ (hdata _ (by decide))]
          exact tupdate_isSome _ _ f1w
        · rw [tupdate_of_none _ _ (hdata _ (by decide))]
          exact tupdate_of_some _ _ f0t
        · rw [tupdate_of_none _ _ (hdata _ (by decide))]
          exact tupdate_isSome _ _ f0r
        · rw [tupdate_of_none _ _ (hdata _ (by decide))]
          exact tupdate_isSome _ _ f0s
        · rw [tupdate_of_none _ _ (hdata _ (by decide))]
          exact tupdate_isSome _ _ f0w
        · rw [tupdate_of_none _ _ (hdata _ (by decide)),
            tupdate_of_none _ _ (hdet _ (by decide))]
          have hnot : ∀ pr ∈ METADATA_MAP, pr.1 ≠ "/ENTRY[entry]/definition" := by
            decide
          exact evalMetadataRules_not_mem METADATA_MAP _ emptyDict t1
            "/ENTRY[entry]/definition" ht1 hnot

/-- Claim C8: for an existing `.asc` input whose preamble and data block are
well-formed — formalized as: `parse_asc` succeeds, which requires every fixed
preamble access (lines 8, 31, 32, 35, 43, so at least 44 preamble lines in
the expected token format) and a parseable numeric data block —
`TransmissionReader.read` on that single file returns a template containing
`/ENTRY[entry]/data/wavelength` and `/ENTRY[entry]/data/transmission`,
detector entries typed `PMT` (detector2), `PbS` (detector1) and `InGaAs`
(detector), each with `type`, `response_time`, `slit/type` and
`wavelength_range` paths filled, and `/ENTRY[entry]/definition` =
`"NXtransmission"`. -/
theorem C8_asc_end_to_end (fs : FileSys) (t : Dict) (p : String)
    (hext : extOf p = ".asc") (hex : fs.fexists p = true)
    (hparse : (parse_asc fs p).isSome = true) :
    ∃ tw, TransmissionReader.read fs t [p] = some tw
    ∧ (tw "/ENTRY[entry]/data/wavelength").isSome = true
    ∧ (tw "/ENTRY[entry]/data/transmission").isSome = true
    ∧ tw (detPath 2 ++ "/type") = some (TValue.vstr "PMT")
    ∧ (tw (detPath 2 ++ "/response_time")).isSome = true
    ∧ (tw (detPath 2 ++ "/slit/type")).isSome = true
    ∧ (tw (detPath 2 ++ "/wavelength_range")).isSome = true
    ∧ tw (detPath 1 ++ "/type") = some (TValue.vstr "PbS")
    ∧ (tw (detPath 1 ++ "/response_time")).isSome = true
    ∧ (tw (detPath 1 ++ "/slit/type")).isSome = true
    ∧ (tw (detPath 1 ++ "/wavelength_range")).isSome = true
    ∧ tw (detPath 0 ++ "/type") = some (TValue.vstr "InGaAs")
    ∧ (tw (detPath 0 ++ "/response_time")).isSome = true
    ∧ (tw (detPath 0 ++ "/slit/type")).isSome = true
    ∧ (tw (detPath 0 ++ "/wavelength_range")).isSome = true
    ∧ tw "/ENTRY[entry]/definition" = some (TValue.vstr "NXtransmission") := by
  obtain ⟨d, hd⟩ := Option.isSome_iff_exists.mp hparse
  obtain ⟨g1, g2, g3, g4, g5, g6, g7, g8, g9, g10, g11, g12, g13, g14, gdef⟩ :=
    parse_asc_facts fs p d hd
  refine ⟨tupdate (applyFixedKeys t) d, ?_, tupdate_isSome _ _ g1,
    tupdate_isSome _ _ g2, tupdate_of_some _ _ g3, tupdate_isSome _ _ g4,
    tupdate_isSome _ _ g5, tupdate_isSome _ _ g6, tupdate_of_some _ _ g7,
    tupdate_isSome _ _ g8, tupdate_isSome _ _ g9, tupdate_isSome _ _ g10,
    tupdate_of_some _ _ g11, tupdate_isSome _ _ g12, tupdate_isSome _ _ g13,
    tupdate_isSome _ _ g14, ?_⟩
  · have hpf : processFile fs (applyFixedKeys t) p
        = some (tupdate (applyFixedKeys t) d) := by
      simp only [processFile]
      rw [hext]
      rw [if_neg (by decide : ¬ (".asc" ∉ recognizedExts))]
      rw [hex]
      rw [if_neg (by decide : ¬ (true = false))]
      simp only [dispatchExt, if_pos]
      rw [hd]
    unfold TransmissionReader.read
    have hsort : sortByExt [p] = [p] := rfl
    rw [hsort]
    simp only [processFiles, hpf]
  · rw [tupdate_of_none _ _ gdef]
    simp [applyFixedKeys, tset]

/-- A well-formed 44-line preamble plus numeric data block for the C8
witness: line 8 a sample name, line 31 the slit tokens, line 32 the response
times, line 35 the gains, line 43 the detector change-over wavelengths. -/
def ascLinesW : List String :=
  ["l0", "l1", "l2", "l3", "l4", "l5", "l6", "l7", "My Sample", "l9",
   "l10", "l11", "l12", "l13", "l14", "l15", "l16", "l17", "l18", "l19",
   "l20", "l21", "l22", "l23", "l24", "l25", "l26", "l27", "l28", "l29",
   "l30", "rear/2.0 front/2.0 servo", "0.2 0.2 0.2", "l33", "l34",
   "1 1 1", "l36", "l37", "l38", "l39",
   "l40", "l41", "l42", "860.8 319.2",
   "#DATA", "200.0 0.5", "300.0 0.6"]

/-- The witness filesystem: exactly one file, `f.asc`, with the contents of
`ascLinesW`. -/
def fsW : FileSys :=
  { fexists := fun p => p == "f.asc"
    flines := fun p => if p = "f.asc" then ascLinesW else []
    jsonData := fun _ => none
    ymlData := fun _ => none }

/-- Witness for C8 at the concrete instrument file `f.asc`. -/
theorem C8_witness :
    ∃ tw, TransmissionReader.read fsW emptyDict ["f.asc"] = some tw
    ∧ (tw "/ENTRY[entry]/data/wavelength").isSome = true
    ∧ (tw "/ENTRY[entry]/data/transmission").isSome = true
    ∧ tw (detPath 2 ++ "/type") = some (TValue.vstr "PMT")
    ∧ (tw (detPath 2 ++ "/response_time")).isSome = true
    ∧ (tw (detPath 2 ++ "/slit/type")).isSome = true
    ∧ (tw (detPath 2 ++ "/wavelength_range")).isSome = true
    ∧ tw (detPath 1 ++ "/type") = some (TValue.vstr "PbS")
    ∧ (tw (detPath 1 ++ "/response_time")).isSome = true
    ∧ (tw (detPath 1 ++ "/slit/type")).isSome = true
    ∧ (tw (detPath 1 ++ "/wavelength_range")).isSome = true
    ∧ tw (detPath 0 ++ "/type") = some (TValue.vstr "InGaAs")
    ∧ (tw (detPath 0 ++ "/response_time")).isSome = true
    ∧ (tw (detPath 0 ++ "/slit/type")).isSome = true
    ∧ (tw (detPath 0 ++ "/wavelength_range")).isSome = true
    ∧ tw "/ENTRY[entry]/definition" = some (TValue.vstr "NXtransmission") :=
  C8_asc_end_to_end fsW emptyDict "f.asc" (by decide) (by decide) (by decide)
